import Mathlib

/-!
Verification development for a multi-tenant authentication gateway
(FastAPI + Keycloak).  The definitions below are a shallow embedding of
the core logic of the repository:

* `joseDecode` / `KeycloakService.decode_token` embed
  `backend/app/services/keycloak_service.py::KeycloakService.decode_token`
  (and the identical `service/dependencies.py::decode_token`): a fresh
  JWKS fetch on every call, `jose.jwt.decode` with `algorithms=["RS256"]`
  and `verify_aud=False, verify_iss=False`, every `JWTError` mapped to a
  single `Invalid token` error kind.
* `identify_tenant` embeds `backend/app/routers/auth.py::identify_tenant`
  including the `urllib.parse.urlencode` construction of the Keycloak
  authorization URL.
* `callback` embeds `backend/app/routers/auth.py::callback` (code
  exchange result and JWKS fetch result are passed in as values, network
  being external; the database session is explicit state).
* `refresh` embeds `backend/app/routers/auth.py::refresh`.
* `get_current_user` embeds
  `backend/app/dependencies.py::get_current_user`, and `logout` embeds
  `backend/app/routers/auth.py::logout` together with FastAPI's
  dependency resolution (dependencies run before the handler body).

Timestamps are abstracted as `Nat` (`datetime.utcnow()` becomes an
explicit `now` parameter); UUID primary keys become `Nat` ids rendered
with `toString` where the code applies `str(...)`.
-/

/-- A row of the `tenants` table (`backend/app/models/tenant.py`).
Audit timestamps are omitted: no modelled operation reads them. -/
structure Tenant where
  id : Nat
  name : String
  identifier : String
  keycloak_idp_alias : String
  status : String
deriving DecidableEq, Repr

/-- A row of the `users` table (`backend/app/models/user.py`).
`last_login` is nullable, hence `Option Nat`. -/
structure User where
  id : Nat
  tenant_id : Nat
  keycloak_user_id : String
  email : String
  first_name : Option String
  last_name : Option String
  department : String
  status : String
  last_login : Option Nat
  updated_at : Nat
deriving DecidableEq, Repr

/-- The relational store visible to the endpoints: the two tables plus
the id the store would assign to the next inserted user row. -/
structure DB where
  tenants : List Tenant
  users : List User
  nextUserId : Nat
deriving DecidableEq, Repr

/-- One key of the provider's JSON Web Key Set.  The actual RSA key
material is abstracted to a `Nat` identity: a signature verifies
exactly when the token was signed with the key selected by `kid`. -/
structure JWK where
  kid : String
  key : Nat
deriving DecidableEq, Repr

/-- The decoded claim set of a JWT.  The code reads `sub`, `email`,
`given_name`, `family_name`; `aud`, `iss` and `exp` participate in
`jose.jwt.decode` validation options; `department` stands for a
department claim that may be present in the payload (the callback code
never reads it). -/
structure Claims where
  sub : Option String
  email : Option String
  given_name : Option String
  family_name : Option String
  aud : Option String
  iss : Option String
  exp : Nat
  department : Option String
deriving DecidableEq, Repr

/-- A bearer token as the verifier sees it: well-formedness of the
compact serialization, the header's `kid` and `alg`, the key the
signature was actually produced with, and the payload claims. -/
structure Token where
  wellFormed : Bool
  kid : String
  alg : String
  signedWith : Nat
  claims : Claims
deriving DecidableEq, Repr

/-- Configuration values read from `backend/app/config.py::settings`
by the modelled endpoints. -/
structure Config where
  clientId : String
  redirectUri : String
  authUrl : String
deriving DecidableEq, Repr

/-- `dict.get(k)` / Python truthiness: `None` and `""` are both falsy,
so the endpoints treat a missing claim and an empty claim alike. -/
def extractOrEmpty : Option String → String
  | none => ""
  | some s => s

/-- Upper-case hex digit of a value below 16 (as in `urllib.parse.quote`). -/
def hexDigitChar (n : Nat) : Char :=
  if n < 10 then Char.ofNat (48 + n) else Char.ofNat (55 + n)

/-- Percent-encoding of one character (ASCII range; the configuration
strings and aliases the code encodes are ASCII). -/
def percentEncodeChar (c : Char) : String :=
  String.mk ['%', hexDigitChar (c.toNat / 16 % 16), hexDigitChar (c.toNat % 16)]

/-- `urllib.parse.quote_plus` on one character: space becomes `+`,
letters, digits and `_.-~` pass through, the rest percent-encode. -/
def quotePlusChar (c : Char) : String :=
  if c = ' ' then "+"
  else if c.isAlphanum ∨ c = '_' ∨ c = '.' ∨ c = '-' ∨ c = '~' then String.singleton c
  else percentEncodeChar c

/-- `urllib.parse.quote_plus` on a string. -/
def quotePlus (s : String) : String :=
  String.join (s.toList.map quotePlusChar)

/-- `urllib.parse.urlencode` on an ordered association list (Python
dicts preserve insertion order): `k=v` pairs joined by `&`. -/
def urlencode : List (String × String) → String
  | [] => ""
  | [p] => quotePlus p.1 ++ "=" ++ quotePlus p.2
  | p :: q :: ps => quotePlus p.1 ++ "=" ++ quotePlus p.2 ++ "&" ++ urlencode (q :: ps)

/-- The response schema of `/auth/identify-tenant`
(`backend/app/schemas/auth.py::IdentifyTenantResponse`). -/
structure IdentifyTenantResponse where
  tenant_found : Bool
  tenant_name : Option String
  tenant_id : Option String
  keycloak_auth_url : Option String
deriving DecidableEq, Repr

/-- The tenant query both `identify_tenant` and `callback` issue:
`db.query(Tenant).filter(Tenant.identifier == d, Tenant.status == "active").first()`. -/
def findActiveTenant (db : DB) (d : String) : Option Tenant :=
  db.tenants.find? (fun t => t.identifier == d && t.status == "active")

/-- The authorization-URL construction inside `identify_tenant`:
`settings.auth_url` plus the urlencoded `client_id`, `response_type`,
`redirect_uri` and `kc_idp_hint` parameters, in that order. -/
def buildAuthUrl (cfg : Config) (idpAlias : String) : String :=
  cfg.authUrl ++ "?" ++ urlencode
    [("client_id", cfg.clientId),
     ("response_type", "code"),
     ("redirect_uri", cfg.redirectUri),
     ("kc_idp_hint", idpAlias)]

/-- `backend/app/routers/auth.py::identify_tenant`: look up the active
tenant by department, answering `tenant_found=False` with all other
fields `None` when there is none, else the tenant summary plus the
Keycloak authorization URL. -/
def identify_tenant (cfg : Config) (db : DB) (department : String) : IdentifyTenantResponse :=
  match findActiveTenant db department with
  | none => ⟨false, none, none, none⟩
  | some tenant =>
      ⟨true, some tenant.name, some (toString tenant.id),
       some (buildAuthUrl cfg tenant.keycloak_idp_alias)⟩

/-- `jose.jwt.decode(token, jwks, algorithms=["RS256"], options=
{"verify_aud": False, "verify_iss": False})`: parse, select the key by
`kid`, check the RS256 signature, check `exp` (the only claim check
left enabled; `aud` and `iss` are explicitly disabled).  Expiry uses
jose's convention that a token is rejected once `exp ≤ now`.  Any
failure is a `JWTError`, carried here as the error message. -/
def joseDecode (jwks : List JWK) (now : Nat) (t : Token) : Except String Claims :=
  if ¬ t.wellFormed then .error "Not enough segments"
  else if t.alg ≠ "RS256" then .error "The specified alg value is not allowed"
  else
    match jwks.find? (fun k => k.kid == t.kid) with
    | none => .error "Signature verification failed: unknown kid"
    | some k =>
        if t.signedWith ≠ k.key then .error "Signature verification failed"
        else if t.claims.exp ≤ now then .error "Signature has expired"
        else .ok t.claims

/-- One error kind: the `Exception(f"Invalid token: {e}")` that
`KeycloakService.decode_token` raises for every `JWTError`. -/
inductive SvcError where
  | invalidToken (msg : String)
deriving DecidableEq, Repr

/-- `KeycloakService.decode_token`: fetch the JWKS from
`settings.certs_url` afresh, then `jose.jwt.decode` against it.  The
service's `_public_key` cache attribute (`cached` here) is initialised
in `__init__` but never read or written by any method, so the fetch
happens unconditionally on every call.  The second component counts
the JWKS fetches the call performed. -/
def KeycloakService.decode_token (cached : Option (List JWK)) (fresh : List JWK)
    (now : Nat) (t : Token) : Except SvcError Claims × Nat :=
  let jwks := fresh
  (match joseDecode jwks now t with
   | .ok c => .ok c
   | .error m => .error (.invalidToken ("Invalid token: " ++ m)), 1)

/-- Membership of a kid in an optional cached key set (the set is
`none` whenever the service has never stored one, which in this code
is always). -/
def kidInCache (cached : Option (List JWK)) (kid : String) : Bool :=
  match cached with
  | none => false
  | some ks => (ks.find? (fun k => k.kid == kid)).isSome

/-- The JSON body the Keycloak token endpoint returns on exchange or
refresh, with the access token already in decoded-JWT view.
`expires_in` is optional because the code reads it with
`token_data.get("expires_in", 300)`. -/
structure TokenData where
  access_token : Token
  refresh_token : String
  expires_in : Option Nat
deriving DecidableEq, Repr

/-- `backend/app/schemas/user.py::TenantResponse`. -/
structure TenantResponse where
  id : String
  name : String
  identifier : String
  keycloak_idp_alias : String
  status : String
deriving DecidableEq, Repr

/-- `backend/app/schemas/user.py::UserResponse` (the `last_login`
ISO-format string is kept as the abstract timestamp). -/
structure UserResponse where
  id : String
  email : String
  first_name : Option String
  last_name : Option String
  department : String
  status : String
  last_login : Option Nat
  tenant : TenantResponse
deriving DecidableEq, Repr

/-- `backend/app/schemas/auth.py::TokenResponse`. -/
structure TokenResponse where
  access_token : Token
  refresh_token : String
  token_type : String
  expires_in : Nat
  user : UserResponse
deriving DecidableEq, Repr

/-- The user query predicate `User.keycloak_user_id == s`. -/
def subMatches (s : String) (u : User) : Bool :=
  u.keycloak_user_id == s

/-- `db.query(User).filter(User.keycloak_user_id == s).first()`. -/
def findUser (db : DB) (s : String) : Option User :=
  db.users.find? (subMatches s)

/-- Mutating the ORM object returned by `.first()` updates exactly the
first row the query matched; `replaceFirst` is that session-level
effect on the table. -/
def replaceFirst (p : User → Bool) (f : User → User) : List User → List User
  | [] => []
  | u :: us => if p u then f u :: us else u :: replaceFirst p f us

/-- The field assignments of the update branch of `callback`:
overwrite `email`, `first_name`, `last_name`, `department`,
`tenant_id`, set `last_login` and `updated_at` to now. -/
def updateFromClaims (email : String) (fn ln : Option String) (dept : String)
    (tid : Nat) (now : Nat) (u : User) : User :=
  { u with
    email := email, first_name := fn, last_name := ln,
    department := dept, tenant_id := tid,
    last_login := some now, updated_at := now }

/-- The find-or-create block of `callback`: update the existing user
with that `keycloak_user_id`, or `db.add` a fresh row with
`status="active"`.  Returns the session state and the ORM object the
response is built from (`db.refresh(user)` re-reads the same row). -/
def upsertUser (db : DB) (s email : String) (fn ln : Option String) (dept : String)
    (tid : Nat) (now : Nat) : DB × User :=
  match findUser db s with
  | some u =>
      ({ db with
          users := replaceFirst (subMatches s) (updateFromClaims email fn ln dept tid now) db.users },
       updateFromClaims email fn ln dept tid now u)
  | none =>
      let newU : User :=
        { id := db.nextUserId, tenant_id := tid, keycloak_user_id := s,
          email := email, first_name := fn, last_name := ln, department := dept,
          status := "active", last_login := some now, updated_at := now }
      ({ db with users := db.users ++ [newU], nextUserId := db.nextUserId + 1 }, newU)

/-- The error responses the auth router raises: HTTP 400, 404 and 500
(`PersistenceError` and every other unexpected failure surface as the
500 branch, after `db.rollback()`). -/
inductive CallbackError where
  | badRequest (detail : String)
  | notFound (detail : String)
  | serverError (detail : String)
deriving DecidableEq, Repr

/-- Projection of a tenant row into its response schema. -/
def mkTenantResponse (t : Tenant) : TenantResponse :=
  ⟨toString t.id, t.name, t.identifier, t.keycloak_idp_alias, t.status⟩

/-- Projection of a user row (plus its tenant summary) into the
response schema. -/
def mkUserResponse (u : User) (tr : TenantResponse) : UserResponse :=
  ⟨toString u.id, u.email, u.first_name, u.last_name, u.department, u.status,
   u.last_login, tr⟩

/-- `backend/app/routers/auth.py::callback`, from the point where the
code-for-token exchange has returned `td` (the exchange is a pure
network call modelled by its result).  `fresh` is the JWKS the
verifier's fetch returns, `now` the call's clock, `commitOk` whether
`db.commit()` succeeds.  The first component is the committed database
state after the call: on every failure path the transaction is rolled
back (or never reached a write), so it equals the input `db`.
Note the hardcoded `department = "tenant-a"` taken verbatim from the
source (its comment claims the department comes from Azure AD). -/
def callback (db : DB) (cached : Option (List JWK)) (fresh : List JWK)
    (now : Nat) (td : TokenData) (commitOk : Bool) :
    DB × Except CallbackError TokenResponse :=
  match (KeycloakService.decode_token cached fresh now td.access_token).1 with
  | .error (.invalidToken m) =>
      (db, .error (.serverError ("Callback processing failed: " ++ m)))
  | .ok decoded =>
      let keycloak_user_id := extractOrEmpty decoded.sub
      let email := extractOrEmpty decoded.email
      let department := "tenant-a"
      if keycloak_user_id = "" ∨ email = "" ∨ department = "" then
        (db, .error (.badRequest "Missing required user information in token"))
      else
        match findActiveTenant db department with
        | none =>
            (db, .error (.notFound ("No active tenant found for department: " ++ department)))
        | some tenant =>
            let res := upsertUser db keycloak_user_id email decoded.given_name
              decoded.family_name department tenant.id now
            if commitOk then
              (res.1,
               .ok { access_token := td.access_token,
                     refresh_token := td.refresh_token,
                     token_type := "bearer",
                     expires_in := td.expires_in.getD 300,
                     user := mkUserResponse res.2 (mkTenantResponse tenant) })
            else
              (db, .error (.serverError "Callback processing failed: persistence error"))

/-- `backend/app/routers/auth.py::refresh`, from the point where the
refresh-token grant has returned `td`.  The handler decodes the new
access token, looks the user up by its `sub`, sets `last_login` (the
ORM's `onupdate` also touches `updated_at`), commits, and rebuilds the
response from the user's tenant.  A missing `sub` makes the query
filter `keycloak_user_id == None`, which matches no row of the
non-nullable column, hence 404. -/
def refresh (db : DB) (cached : Option (List JWK)) (fresh : List JWK)
    (now : Nat) (td : TokenData) (commitOk : Bool) :
    DB × Except CallbackError TokenResponse :=
  match (KeycloakService.decode_token cached fresh now td.access_token).1 with
  | .error (.invalidToken m) =>
      (db, .error (.serverError ("Token refresh failed: " ++ m)))
  | .ok decoded =>
      match decoded.sub with
      | none => (db, .error (.notFound "User not found"))
      | some s =>
          match findUser db s with
          | none => (db, .error (.notFound "User not found"))
          | some u =>
              let touch : User → User :=
                fun v => { v with last_login := some now, updated_at := now }
              let db' := { db with users := replaceFirst (subMatches s) touch db.users }
              if commitOk then
                match db.tenants.find? (fun t => t.id == u.tenant_id) with
                | none =>
                    (db', .error (.serverError "Token refresh failed: tenant missing"))
                | some tenant =>
                    (db',
                     .ok { access_token := td.access_token,
                           refresh_token := td.refresh_token,
                           token_type := "bearer",
                           expires_in := td.expires_in.getD 300,
                           user := mkUserResponse (touch u) (mkTenantResponse tenant) })
              else
                (db, .error (.serverError "Token refresh failed: persistence error"))

/-- The error outcomes of the authentication dependency: HTTP 401
(unauthenticated), 404 (subject unknown locally), 403 (forbidden) and
500 (used only by handlers downstream of it). -/
inductive HTTPError where
  | unauthorized (detail : String)
  | notFound (detail : String)
  | forbidden (detail : String)
  | serverError (detail : String)
deriving DecidableEq, Repr

/-- `backend/app/dependencies.py::get_current_user`: decode the bearer
token, reject a missing/empty `sub` with 401, an unknown subject with
404, a non-active user with 403; every decode failure is wrapped as
401 `Authentication failed`. -/
def get_current_user (db : DB) (cached : Option (List JWK)) (fresh : List JWK)
    (now : Nat) (t : Token) : Except HTTPError User :=
  match (KeycloakService.decode_token cached fresh now t).1 with
  | .error (.invalidToken m) =>
      .error (.unauthorized ("Authentication failed: " ++ m))
  | .ok decoded =>
      if extractOrEmpty decoded.sub = "" then
        .error (.unauthorized "Invalid token: missing user ID")
      else
        match findUser db (extractOrEmpty decoded.sub) with
        | none => .error (.notFound "User not found in database")
        | some user =>
            if user.status ≠ "active" then .error (.forbidden "User account is not active")
            else .ok user

/-- Outcome of the logout endpoint together with the externally
observable effect: whether the Keycloak revocation call was issued. -/
structure LogoutResult where
  response : Except HTTPError String
  revokeCalled : Bool
deriving Repr

/-- `backend/app/routers/auth.py::logout` under FastAPI dependency
semantics: `Depends(get_current_user)` is resolved before the handler
body runs, so a failing dependency short-circuits the request and
`keycloak_service.revoke_token` is never called.  `revokeOk` models
the upstream revocation outcome once it is attempted. -/
def logout (db : DB) (cached : Option (List JWK)) (fresh : List JWK) (now : Nat)
    (bearer : Token) (refreshToken : String) (revokeOk : Bool) : LogoutResult :=
  match get_current_user db cached fresh now bearer with
  | .error e => ⟨.error e, false⟩
  | .ok _ =>
      if revokeOk then ⟨.ok "Logged out successfully", true⟩
      else ⟨.error (.serverError "Logout failed"), true⟩

/-! ## Helper lemmas about the session-level list operations -/

/-- `find?` skips over a prefix in which nothing matches. -/
theorem find?_append_eq_of_none {α} {p : α → Bool} {l1 l2 : List α}
    (h : l1.find? p = none) : (l1 ++ l2).find? p = l2.find? p := by
  induction l1 with
  | nil => rfl
  | cons a l ih =>
      cases hpa : p a with
      | true => rw [List.find?_cons_of_pos l hpa] at h; exact absurd h (by simp)
      | false =>
          rw [List.find?_cons_of_neg l (by simp [hpa])] at h
          rw [List.cons_append, List.find?_cons_of_neg _ (by simp [hpa])]
          exact ih h

/-- Splitting a list at the first element `find?` returns. -/
theorem replaceFirst_decomp {p : User → Bool} {f : User → User} {l : List User} {u : User}
    (h : l.find? p = some u) :
    ∃ l1 l2, l = l1 ++ u :: l2 ∧ l1.find? p = none ∧
      replaceFirst p f l = l1 ++ f u :: l2 := by
  induction l with
  | nil => simp at h
  | cons a l ih =>
      cases hpa : p a with
      | true =>
          rw [List.find?_cons_of_pos l hpa] at h
          obtain rfl : a = u := by simpa using h
          exact ⟨[], l, by simp, by simp, by simp [replaceFirst, hpa]⟩
      | false =>
          rw [List.find?_cons_of_neg l (by simp [hpa])] at h
          obtain ⟨l1, l2, hl, hn, hr⟩ := ih h
          refine ⟨a :: l1, l2, by simp [hl], ?_, ?_⟩
          · rw [List.find?_cons_of_neg _ (by simp [hpa])]; exact hn
          · simp [replaceFirst, hpa, hr]

/-- After replacing the first match by something that still matches,
`find?` returns the replacement. -/
theorem find?_replaceFirst {p : User → Bool} {f : User → User} {l : List User} {u : User}
    (h : l.find? p = some u) (hf : p (f u) = true) :
    (replaceFirst p f l).find? p = some (f u) := by
  obtain ⟨l1, l2, _, hn, hr⟩ := replaceFirst_decomp (f := f) h
  rw [hr, find?_append_eq_of_none hn, List.find?_cons_of_pos _ hf]

/-- Replacing the first match by something that still matches keeps
the number of matching rows. -/
theorem filter_length_replaceFirst {p : User → Bool} {f : User → User} {l : List User}
    {u : User} (h : l.find? p = some u) (hf : p (f u) = true) :
    ((replaceFirst p f l).filter p).length = (l.filter p).length := by
  obtain ⟨l1, l2, hl, _, hr⟩ := replaceFirst_decomp (f := f) h
  have hu : p u = true := List.find?_some h
  rw [hr, hl, List.filter_append, List.filter_append, List.filter_cons_of_pos hf,
    List.filter_cons_of_pos hu]
  simp

/-- Rows the predicate does not match survive a `replaceFirst` untouched. -/
theorem mem_replaceFirst_of_neg {p : User → Bool} {f : User → User} {l : List User}
    {x : User} (hx : x ∈ l) (hpx : p x = false) : x ∈ replaceFirst p f l := by
  induction l with
  | nil => simp at hx
  | cons a l ih =>
      cases hpa : p a with
      | true =>
          simp only [replaceFirst, hpa, if_true]
          rcases List.mem_cons.mp hx with rfl | hmem
          · rw [hpa] at hpx; exact absurd hpx (by simp)
          · exact List.mem_cons_of_mem _ hmem
      | false =>
          simp only [replaceFirst, hpa, if_false]
          rcases List.mem_cons.mp hx with rfl | hmem
          · exact List.mem_cons_self _ _
          · exact List.mem_cons_of_mem _ (ih hmem)

/-- The result component of the service decode is the jose decode of
the freshly fetched key set, with the error wrapped as `Invalid token`. -/
theorem decode_token_fst (cached : Option (List JWK)) (fresh : List JWK)
    (now : Nat) (t : Token) :
    (KeycloakService.decode_token cached fresh now t).1 =
      (joseDecode fresh now t).mapError
        (fun m => .invalidToken ("Invalid token: " ++ m)) := by
  simp only [KeycloakService.decode_token]
  cases joseDecode fresh now t <;> rfl

/-- A successful jose decode always hands back the token's own payload
claims. -/
theorem joseDecode_ok_claims {jwks : List JWK} {now : Nat} {t : Token} {c : Claims}
    (h : joseDecode jwks now t = .ok c) : c = t.claims := by
  unfold joseDecode at h
  split at h
  · simp at h
  · split at h
    · simp at h
    · split at h
      · simp at h
      · split at h
        · simp at h
        · split at h
          · simp at h
          · simpa using h.symm

/-- A decoded result always carries the token's own payload claims. -/
theorem decode_token_ok_claims {cached : Option (List JWK)} {fresh : List JWK}
    {now : Nat} {t : Token} {c : Claims}
    (h : (KeycloakService.decode_token cached fresh now t).1 = .ok c) :
    c = t.claims := by
  rw [decode_token_fst] at h
  cases hj : joseDecode fresh now t with
  | ok c' => rw [hj] at h; simp [Except.mapError] at h; rw [← h]; exact joseDecode_ok_claims hj
  | error m => rw [hj] at h; simp [Except.mapError] at h

/-- The update branch of the upsert never touches `keycloak_user_id`,
so the row keeps matching its subject. -/
theorem subMatches_updateFromClaims (s email : String) (fn ln : Option String)
    (dept : String) (tid now : Nat) (u : User) :
    subMatches s (updateFromClaims email fn ln dept tid now u) = subMatches s u := rfl

/-- The upsert leaves the tenants table (and the other columns of the
store) alone. -/
theorem upsertUser_tenants (db : DB) (s email : String) (fn ln : Option String)
    (dept : String) (tid now : Nat) :
    (upsertUser db s email fn ln dept tid now).1.tenants = db.tenants := by
  unfold upsertUser
  cases h : findUser db s <;> simp

/-- The row the upsert hands back carries the claim-derived values. -/
theorem upsertUser_fields (db : DB) (s email : String) (fn ln : Option String)
    (dept : String) (tid now : Nat) :
    let u := (upsertUser db s email fn ln dept tid now).2
    u.keycloak_user_id = s ∧ u.email = email ∧ u.first_name = fn ∧ u.last_name = ln ∧
    u.department = dept ∧ u.tenant_id = tid ∧ u.last_login = some now := by
  unfold upsertUser
  cases h : findUser db s with
  | some u =>
      have : u.keycloak_user_id = s := by
        have := List.find?_some h
        simpa [subMatches] using this
      simp [updateFromClaims, this]
  | none => simp

/-- When the subject already has a row, the upsert reuses its id. -/
theorem upsertUser_id_of_found {db : DB} {s : String} {u : User}
    (h : findUser db s = some u) (email : String) (fn ln : Option String)
    (dept : String) (tid now : Nat) :
    (upsertUser db s email fn ln dept tid now).2.id = u.id := by
  unfold upsertUser
  rw [h]
  rfl

/-- After the upsert the subject's row is exactly the returned one. -/
theorem findUser_upsertUser (db : DB) (s email : String) (fn ln : Option String)
    (dept : String) (tid now : Nat) :
    findUser (upsertUser db s email fn ln dept tid now).1 s =
      some (upsertUser db s email fn ln dept tid now).2 := by
  unfold upsertUser
  cases h : findUser db s with
  | some u =>
      simpa [findUser] using
        find?_replaceFirst (f := updateFromClaims email fn ln dept tid now) h
          (by rw [subMatches_updateFromClaims]; exact List.find?_some h)
  | none =>
      show List.find? _ (db.users ++ [_]) = _
      rw [find?_append_eq_of_none h, List.find?_cons_of_pos _ (by simp [subMatches])]

/-- An upsert ends with exactly one row for the subject, provided the
store respected the uniqueness invariant beforehand. -/
theorem upsertUser_count (db : DB) (s email : String) (fn ln : Option String)
    (dept : String) (tid now : Nat)
    (hinv : (db.users.filter (subMatches s)).length ≤ 1) :
    ((upsertUser db s email fn ln dept tid now).1.users.filter (subMatches s)).length = 1 := by
  unfold upsertUser
  cases h : findUser db s with
  | some u =>
      have hcount :
          ((replaceFirst (subMatches s) (updateFromClaims email fn ln dept tid now)
              db.users).filter (subMatches s)).length =
            (db.users.filter (subMatches s)).length :=
        filter_length_replaceFirst h
          (by rw [subMatches_updateFromClaims]; exact List.find?_some h)
      have hmem : u ∈ db.users.filter (subMatches s) :=
        List.mem_filter.mpr ⟨List.mem_of_find?_eq_some h, List.find?_some h⟩
      have h1 : 1 ≤ (db.users.filter (subMatches s)).length :=
        List.length_pos.mpr (fun hnil => by simp [hnil] at hmem)
      simpa [hcount] using le_antisymm hinv h1
  | none =>
      have hnil : db.users.filter (subMatches s) = [] :=
        List.filter_eq_nil_iff.mpr (fun x hx => by
          simpa using List.find?_eq_none.mp h x hx)
      simp [List.filter_append, hnil, subMatches]

/-- Inversion of a successful callback: the access token decoded to its
own claims, the mandatory claims were non-empty, the hardcoded
department resolved to an active tenant, and the committed state and
the response row come from the upsert. -/
theorem callback_ok_inversion {db : DB} {cached : Option (List JWK)} {fresh : List JWK}
    {now : Nat} {td : TokenData} {db' : DB} {r : TokenResponse}
    (h : callback db cached fresh now td true = (db', .ok r)) :
    ∃ tenant,
      (KeycloakService.decode_token cached fresh now td.access_token).1 =
        .ok td.access_token.claims ∧
      extractOrEmpty td.access_token.claims.sub ≠ "" ∧
      extractOrEmpty td.access_token.claims.email ≠ "" ∧
      findActiveTenant db "tenant-a" = some tenant ∧
      db' = (upsertUser db (extractOrEmpty td.access_token.claims.sub)
              (extractOrEmpty td.access_token.claims.email)
              td.access_token.claims.given_name td.access_token.claims.family_name
              "tenant-a" tenant.id now).1 ∧
      r.user = mkUserResponse
        (upsertUser db (extractOrEmpty td.access_token.claims.sub)
          (extractOrEmpty td.access_token.claims.email)
          td.access_token.claims.given_name td.access_token.claims.family_name
          "tenant-a" tenant.id now).2 (mkTenantResponse tenant) := by
  simp only [callback] at h
  split at h
  · simp at h
  · rename_i decoded heq
    have hdc : decoded = td.access_token.claims := decode_token_ok_claims heq
    subst hdc
    split at h
    · simp at h
    · rename_i hcond
      push_neg at hcond
      split at h
      · simp at h
      · rename_i tenant htenant
        simp only [if_true] at h
        obtain ⟨hdb, hr⟩ := Prod.mk.injEq .. ▸ h
        refine ⟨tenant, heq, hcond.1, hcond.2.1, htenant, hdb.symm, ?_⟩
        have := hr
        simp only [Except.ok.injEq] at this
        rw [← this]

/-- Full characterization of a successful jose decode: the token is
well formed, `RS256`, signed with the key its `kid` selects from the
key set, and not yet expired.  No condition on `aud` or `iss`. -/
theorem joseDecode_ok_iff {jwks : List JWK} {now : Nat} {t : Token} :
    joseDecode jwks now t = .ok t.claims ↔
      (t.wellFormed = true ∧ t.alg = "RS256" ∧
       (∃ k, jwks.find? (fun k => k.kid == t.kid) = some k ∧ t.signedWith = k.key) ∧
       now < t.claims.exp) := by
  constructor
  · intro h
    unfold joseDecode at h
    split at h
    · simp at h
    · rename_i hw
      split at h
      · simp at h
      · rename_i ha
        split at h
        · simp at h
        · rename_i k hk
          split at h
          · simp at h
          · rename_i hs
            split at h
            · simp at h
            · rename_i he
              exact ⟨by simpa using hw, by simpa using ha,
                ⟨k, hk, by simpa using hs⟩, by simpa using he⟩
  · rintro ⟨hw, ha, ⟨k, hk, hs⟩, he⟩
    have hne : ¬ t.claims.exp ≤ now := Nat.not_le.mpr he
    simp [joseDecode, hw, ha, hk, hs, hne]

/-- A jose decode either succeeds with the token's claims or fails. -/
theorem joseDecode_ok_or_error (jwks : List JWK) (now : Nat) (t : Token) :
    joseDecode jwks now t = .ok t.claims ∨ ∃ m, joseDecode jwks now t = .error m := by
  cases hj : joseDecode jwks now t with
  | ok c =>
      have hc := joseDecode_ok_claims hj
      exact Or.inl (by rw [hc])
  | error m => exact Or.inr ⟨m, rfl⟩

/-- Every failing service decode is the single `Invalid token` kind. -/
theorem decode_token_error_shape {cached : Option (List JWK)} {fresh : List JWK}
    {now : Nat} {t : Token}
    (h : (KeycloakService.decode_token cached fresh now t).1.isOk = false) :
    ∃ m, (KeycloakService.decode_token cached fresh now t).1 =
      .error (.invalidToken m) := by
  rw [decode_token_fst] at h ⊢
  cases hj : joseDecode fresh now t with
  | ok c => rw [hj] at h; simp [Except.mapError, Except.toBool, Except.isOk] at h
  | error m => exact ⟨"Invalid token: " ++ m, rfl⟩

/-- A service decode that reports success decoded the token's claims. -/
theorem decode_token_isOk_ok {cached : Option (List JWK)} {fresh : List JWK}
    {now : Nat} {t : Token}
    (h : (KeycloakService.decode_token cached fresh now t).1.isOk = true) :
    (KeycloakService.decode_token cached fresh now t).1 = .ok t.claims := by
  rw [decode_token_fst] at h ⊢
  cases hj : joseDecode fresh now t with
  | ok c => rw [joseDecode_ok_claims hj]; rfl
  | error m => rw [hj] at h; simp [Except.mapError, Except.toBool, Except.isOk] at h

/-- Success of the service decode is exactly success of the jose
decode on the freshly fetched keys. -/
theorem decode_token_isOk_iff {cached : Option (List JWK)} {fresh : List JWK}
    {now : Nat} {t : Token} :
    (KeycloakService.decode_token cached fresh now t).1.isOk = true ↔
      joseDecode fresh now t = .ok t.claims := by
  constructor
  · intro h
    have hd := decode_token_isOk_ok h
    rw [decode_token_fst] at hd
    cases hj : joseDecode fresh now t with
    | ok c => rw [joseDecode_ok_claims hj]
    | error m => rw [hj] at hd; simp [Except.mapError] at hd
  · intro h
    rw [decode_token_fst, h]
    rfl

/-! ## Concrete fixtures used by witnesses and counterexamples -/

/-- Configuration carrying the repository's default settings values. -/
def cfg0 : Config :=
  ⟨"fastapi-backend", "http://localhost:3000/auth/callback",
   "http://localhost/auth/keycloak/realms/multi-tenant-app/protocol/openid-connect/auth"⟩

/-- An active tenant matching Scenario A of the specification. -/
def tenantA : Tenant := ⟨1, "Tenant A Corp", "tenant-a", "microsoft", "active"⟩

/-- A second active tenant whose identifier is `tenant-b`. -/
def tenantB : Tenant := ⟨2, "Tenant B Corp", "tenant-b", "microsoft", "active"⟩

/-- One provider signing key. -/
def key0 : JWK := ⟨"kid1", 77⟩

/-- Claims for subject `abc`, carrying a department claim `tenant-b`. -/
def claims0 : Claims :=
  ⟨some "abc", some "a@x.com", some "A", some "B", some "account",
   some "http://localhost:8080/realms/multi-tenant-app", 1000, some "tenant-b"⟩

/-- A well-formed token signed with `key0` over `claims0`. -/
def tok0 : Token := ⟨true, "kid1", "RS256", 77, claims0⟩

/-- A token-endpoint response carrying `tok0`. -/
def td0 : TokenData := ⟨tok0, "rt-1", some 300⟩

/-! ## The claims -/

/-- C2: for every token whose kid is absent from the currently cached
key set, verification performs exactly one fresh JWKS fetch; it
succeeds only if the kid appears in the refreshed set, otherwise it
fails with the single `InvalidToken` error kind — never declaring
failure without that one fetch and never fetching twice. -/
theorem decode_token_unknown_kid_single_refresh
    (cached : Option (List JWK)) (fresh : List JWK) (now : Nat) (t : Token)
    (h : kidInCache cached t.kid = false) :
    (KeycloakService.decode_token cached fresh now t).2 = 1 ∧
    ((KeycloakService.decode_token cached fresh now t).1.isOk = true →
       (fresh.find? (fun k => k.kid == t.kid)).isSome = true) ∧
    ((KeycloakService.decode_token cached fresh now t).1.isOk = false →
       ∃ m, (KeycloakService.decode_token cached fresh now t).1 =
         .error (.invalidToken m)) := by
  refine ⟨rfl, ?_, fun hf => decode_token_error_shape hf⟩
  intro hok
  obtain ⟨_, _, ⟨k, hk, _⟩, _⟩ := joseDecode_ok_iff.mp (decode_token_isOk_iff.mp hok)
  simp [hk]

/-- Witness for C2: the unknown-kid theorem applied to `tok0` against
an empty cache and a fresh set containing its key. -/
theorem decode_token_unknown_kid_single_refresh_witness :
    kidInCache none tok0.kid = false ∧
    (KeycloakService.decode_token none [key0] 500 tok0).2 = 1 :=
  ⟨by decide,
   (decode_token_unknown_kid_single_refresh none [key0] 500 tok0 (by decide)).1⟩

/-- C4: verification checks well-formedness, the RS256 algorithm, the
signature against the kid-selected provider key, and expiry — never
audience or issuer; every rejection (malformed, expired, unknown kid
after the fetch, signature mismatch) is the single `InvalidToken`
kind, and a rejected token never yields claims. -/
theorem decode_token_no_aud_iss_single_error_kind
    (cached : Option (List JWK)) (fresh : List JWK) (now : Nat) (t : Token) :
    (∀ a i, ((KeycloakService.decode_token cached fresh now
        { t with claims := { t.claims with aud := a, iss := i } }).1).isOk =
      ((KeycloakService.decode_token cached fresh now t).1).isOk) ∧
    (∀ c, (KeycloakService.decode_token cached fresh now t).1 = .ok c →
       c = t.claims ∧ t.wellFormed = true ∧ t.alg = "RS256" ∧
       (∃ k, fresh.find? (fun k => k.kid == t.kid) = some k ∧ t.signedWith = k.key) ∧
       now < t.claims.exp) ∧
    (t.wellFormed = false →
       ∃ m, (KeycloakService.decode_token cached fresh now t).1 =
         .error (.invalidToken m)) ∧
    (t.claims.exp ≤ now →
       ∃ m, (KeycloakService.decode_token cached fresh now t).1 =
         .error (.invalidToken m)) ∧
    (fresh.find? (fun k => k.kid == t.kid) = none →
       ∃ m, (KeycloakService.decode_token cached fresh now t).1 =
         .error (.invalidToken m)) ∧
    (∀ k, fresh.find? (fun k => k.kid == t.kid) = some k → t.signedWith ≠ k.key →
       ∃ m, (KeycloakService.decode_token cached fresh now t).1 =
         .error (.invalidToken m)) ∧
    ((KeycloakService.decode_token cached fresh now t).1.isOk = false →
       ∃ m, (KeycloakService.decode_token cached fresh now t).1 =
         .error (.invalidToken m)) := by
  have hfail : ¬ joseDecode fresh now t = .ok t.claims →
      ∃ m, (KeycloakService.decode_token cached fresh now t).1 =
        .error (.invalidToken m) := by
    intro hno
    apply decode_token_error_shape
    cases hb : (KeycloakService.decode_token cached fresh now t).1.isOk
    · rfl
    · exact absurd (decode_token_isOk_iff.mp hb) hno
  refine ⟨?_, ?_, ?_, ?_, ?_, ?_, fun hf => decode_token_error_shape hf⟩
  · intro a i
    have hiff :
        ((KeycloakService.decode_token cached fresh now
          { t with claims := { t.claims with aud := a, iss := i } }).1).isOk = true ↔
        ((KeycloakService.decode_token cached fresh now t).1).isOk = true := by
      rw [decode_token_isOk_iff, decode_token_isOk_iff, joseDecode_ok_iff, joseDecode_ok_iff]
    cases hb' : ((KeycloakService.decode_token cached fresh now
        { t with claims := { t.claims with aud := a, iss := i } }).1).isOk with
    | true => exact (hiff.mp hb').symm
    | false =>
        cases hb : ((KeycloakService.decode_token cached fresh now t).1).isOk with
        | false => rfl
        | true => exact absurd (hiff.mpr hb) (by simp [hb'])
  · intro c hc
    have hclaims := decode_token_ok_claims hc
    have hok : (KeycloakService.decode_token cached fresh now t).1.isOk = true := by
      rw [hc]; rfl
    obtain ⟨hw, ha, hk, he⟩ := joseDecode_ok_iff.mp (decode_token_isOk_iff.mp hok)
    exact ⟨hclaims, hw, ha, hk, he⟩
  · intro hw
    exact hfail (fun hok => by rw [(joseDecode_ok_iff.mp hok).1] at hw; exact Bool.noConfusion hw)
  · intro he
    exact hfail (fun hok =>
      absurd (joseDecode_ok_iff.mp hok).2.2.2 (Nat.not_lt.mpr he))
  · intro hk
    refine hfail (fun hok => ?_)
    obtain ⟨_, _, ⟨k, hk', _⟩, _⟩ := joseDecode_ok_iff.mp hok
    rw [hk] at hk'
    exact Option.noConfusion hk'
  · intro k hk hs
    refine hfail (fun hok => ?_)
    obtain ⟨_, _, ⟨k', hk', hs'⟩, _⟩ := joseDecode_ok_iff.mp hok
    rw [hk] at hk'
    obtain rfl : k = k' := by injection hk'
    exact hs hs'

/-- Witness for C4: the expired-token conjunct applied to `tok0` at a
clock past its expiry. -/
theorem decode_token_no_aud_iss_single_error_kind_witness :
    tok0.claims.exp ≤ 2000 ∧
    ∃ m, (KeycloakService.decode_token none [key0] 2000 tok0).1 =
      .error (.invalidToken m) :=
  ⟨by decide,
   (decode_token_no_aud_iss_single_error_kind none [key0] 2000 tok0).2.2.2.1 (by decide)⟩

/-- The initial store used by witnesses: both tenants, no users. -/
def db0 : DB := ⟨[tenantA, tenantB], [], 10⟩

/-- A malformed bearer token (bad compact serialization). -/
def tokBad : Token := ⟨false, "kid1", "RS256", 77, claims0⟩

/-- An inactive local user for the `sub` of `tok0`. -/
def userInactive : User :=
  ⟨7, 1, "abc", "a@x.com", some "A", some "B", "tenant-a", "inactive", some 100, 100⟩

/-- A store whose only user is inactive. -/
def dbInactive : DB := ⟨[tenantA], [userInactive], 10⟩

/-- C5: `get_current_user` yields 401 for an invalid token or missing
`sub` (unauthenticated), a failure for a subject with no local row,
and 403 — distinguishable from 401 — for a non-active user; a profile
comes back only for an active, locally known subject. -/
theorem get_current_user_distinguishes_outcomes
    (db : DB) (cached : Option (List JWK)) (fresh : List JWK) (now : Nat) (t : Token) :
    (∀ m, (KeycloakService.decode_token cached fresh now t).1 =
        .error (.invalidToken m) →
      get_current_user db cached fresh now t =
        .error (.unauthorized ("Authentication failed: " ++ m))) ∧
    ((KeycloakService.decode_token cached fresh now t).1.isOk = true →
      extractOrEmpty t.claims.sub = "" →
      get_current_user db cached fresh now t =
        .error (.unauthorized "Invalid token: missing user ID")) ∧
    ((KeycloakService.decode_token cached fresh now t).1.isOk = true →
      extractOrEmpty t.claims.sub ≠ "" →
      findUser db (extractOrEmpty t.claims.sub) = none →
      get_current_user db cached fresh now t =
        .error (.notFound "User not found in database")) ∧
    (∀ u, (KeycloakService.decode_token cached fresh now t).1.isOk = true →
      extractOrEmpty t.claims.sub ≠ "" →
      findUser db (extractOrEmpty t.claims.sub) = some u →
      u.status ≠ "active" →
      get_current_user db cached fresh now t =
        .error (.forbidden "User account is not active")) ∧
    (∀ u, get_current_user db cached fresh now t = .ok u →
      u.status = "active" ∧ findUser db (extractOrEmpty t.claims.sub) = some u) ∧
    (∀ d1 d2, HTTPError.forbidden d1 ≠ HTTPError.unauthorized d2) := by
  refine ⟨?_, ?_, ?_, ?_, ?_, fun d1 d2 => by simp⟩
  · intro m hm
    simp [get_current_user, hm]
  · intro hok hsub
    have hd := decode_token_isOk_ok hok
    simp [get_current_user, hd, hsub]
  · intro hok hsub hfind
    have hd := decode_token_isOk_ok hok
    simp [get_current_user, hd, hsub, hfind]
  · intro u hok hsub hfind hstatus
    have hd := decode_token_isOk_ok hok
    simp [get_current_user, hd, hsub, hfind, hstatus]
  · intro u hu
    unfold get_current_user at hu
    split at hu
    · simp at hu
    · rename_i decoded heq
      have hdc : decoded = t.claims := decode_token_ok_claims heq
      subst hdc
      split at hu
      · simp at hu
      · split at hu
        · simp at hu
        · rename_i u' hfind
          split at hu
          · simp at hu
          · rename_i hstat
            obtain rfl : u' = u := by simpa using hu
            exact ⟨by simpa using hstat, hfind⟩

/-- Witness for C5: the forbidden conjunct applied to a valid token of
an inactive local user. -/
theorem get_current_user_distinguishes_outcomes_witness :
    (KeycloakService.decode_token none [key0] 500 tok0).1.isOk = true ∧
    get_current_user dbInactive none [key0] 500 tok0 =
      .error (.forbidden "User account is not active") :=
  ⟨by decide,
   (get_current_user_distinguishes_outcomes dbInactive none [key0] 500 tok0).2.2.2.1
     userInactive (by decide) (by decide) (by decide) (by decide)⟩

/-- C10: logout runs its bearer authentication dependency first; when
that fails, the request is rejected with the dependency's own outcome
and the upstream revocation call is never made. -/
theorem logout_requires_valid_bearer
    (db : DB) (cached : Option (List JWK)) (fresh : List JWK) (now : Nat)
    (bearer : Token) (rt : String) (revokeOk : Bool) (e : HTTPError)
    (h : get_current_user db cached fresh now bearer = .error e) :
    (logout db cached fresh now bearer rt revokeOk).response = .error e ∧
    (logout db cached fresh now bearer rt revokeOk).revokeCalled = false := by
  simp [logout, h]

/-- Witness for C10: a malformed bearer token short-circuits logout
without any revocation call. -/
theorem logout_requires_valid_bearer_witness :
    (logout db0 none [key0] 500 tokBad "rt-1" true).response =
      .error (.unauthorized "Authentication failed: Invalid token: Not enough segments") ∧
    (logout db0 none [key0] 500 tokBad "rt-1" true).revokeCalled = false :=
  logout_requires_valid_bearer db0 none [key0] 500 tokBad "rt-1" true _ (by rfl)

/-- C6: `identify_tenant` reports `found=true` exactly when some
active tenant's identifier equals the department; an inactive exact
match or an unknown department yields `found=false` with every other
field absent, as a normal value; under the identifier-uniqueness
invariant the reported tenant is the unique active match. -/
theorem identify_tenant_active_match_or_not_found
    (cfg : Config) (db : DB) (dept : String) :
    ((identify_tenant cfg db dept).tenant_found = true ↔
      ∃ t ∈ db.tenants, t.identifier = dept ∧ t.status = "active") ∧
    ((¬ ∃ t ∈ db.tenants, t.identifier = dept ∧ t.status = "active") →
      identify_tenant cfg db dept = ⟨false, none, none, none⟩) ∧
    ((∀ t1 ∈ db.tenants, ∀ t2 ∈ db.tenants, t1.identifier = t2.identifier → t1 = t2) →
      ∀ t ∈ db.tenants, t.identifier = dept → t.status = "active" →
        identify_tenant cfg db dept =
          ⟨true, some t.name, some (toString t.id),
           some (buildAuthUrl cfg t.keycloak_idp_alias)⟩) := by
  unfold identify_tenant findActiveTenant
  cases hf : db.tenants.find? (fun t => t.identifier == dept && t.status == "active") with
  | none =>
      have hnone : ∀ t ∈ db.tenants, ¬ (t.identifier = dept ∧ t.status = "active") := by
        intro t ht hc
        have := List.find?_eq_none.mp hf t ht
        simp [hc.1, hc.2] at this
      refine ⟨?_, fun _ => rfl, ?_⟩
      · simp only [Bool.false_eq_true, false_iff]
        rintro ⟨t, ht, h1, h2⟩
        exact hnone t ht ⟨h1, h2⟩
      · intro _ t ht h1 h2
        exact absurd ⟨h1, h2⟩ (hnone t ht)
  | some t0 =>
      have ht0 := List.find?_some hf
      have ht0mem := List.mem_of_find?_eq_some hf
      simp only [Bool.and_eq_true, beq_iff_eq] at ht0
      refine ⟨?_, ?_, ?_⟩
      · simp only [true_iff]
        exact ⟨t0, ht0mem, ht0.1, ht0.2⟩
      · intro hne
        exact absurd ⟨t0, ht0mem, ht0.1, ht0.2⟩ hne
      · intro huniq t ht h1 h2
        obtain rfl : t0 = t := huniq t0 ht0mem t ht (by rw [ht0.1, h1])
        rfl

/-- Witness for C6: Scenario B — an unknown department and an inactive
exact match both yield the all-absent not-found response. -/
theorem identify_tenant_active_match_or_not_found_witness :
    identify_tenant cfg0 ⟨[⟨3, "Dead Corp", "tenant-c", "microsoft", "inactive"⟩], [], 0⟩
      "tenant-c" = ⟨false, none, none, none⟩ ∧
    identify_tenant cfg0 db0 "unknown-dept" = ⟨false, none, none, none⟩ :=
  ⟨(identify_tenant_active_match_or_not_found cfg0 _ "tenant-c").2.1 (by decide),
   (identify_tenant_active_match_or_not_found cfg0 db0 "unknown-dept").2.1 (by decide)⟩

/-- C7: the authorization URL is a pure, deterministic composition of
the configured authorize endpoint with `client_id`,
`response_type=code`, the configured `redirect_uri` and a
`kc_idp_hint` equal to the tenant's identity-provider alias; the
identify endpoint returns exactly this URL for the resolved tenant,
and for an active tenant with alias `microsoft` the URL contains
`kc_idp_hint=microsoft`. -/
theorem identify_tenant_builds_idp_hint_url
    (cfg : Config) (db : DB) (dept : String) :
    (∀ t, findActiveTenant db dept = some t →
      (identify_tenant cfg db dept).keycloak_auth_url =
        some (buildAuthUrl cfg t.keycloak_idp_alias)) ∧
    (∀ idpAlias, buildAuthUrl cfg idpAlias =
      cfg.authUrl ++ "?" ++
        (urlencode [("client_id", cfg.clientId)] ++ "&" ++
         (urlencode [("response_type", "code")] ++ "&" ++
          (urlencode [("redirect_uri", cfg.redirectUri)] ++ "&" ++
           urlencode [("kc_idp_hint", idpAlias)])))) ∧
    (∃ pre, buildAuthUrl cfg "microsoft" = pre ++ "kc_idp_hint=microsoft") := by
  refine ⟨?_, ?_, ?_⟩
  · intro t ht
    simp [identify_tenant, ht]
  · intro idpAlias
    simp [buildAuthUrl, urlencode, String.append_assoc]
  · refine ⟨cfg.authUrl ++ "?" ++
      (urlencode [("client_id", cfg.clientId)] ++ "&" ++
       (urlencode [("response_type", "code")] ++ "&" ++
        (urlencode [("redirect_uri", cfg.redirectUri)] ++ "&"))), ?_⟩
    have h1 : quotePlus "kc_idp_hint" = "kc_idp_hint" := by decide
    have h2 : quotePlus "microsoft" = "microsoft" := by decide
    simp [buildAuthUrl, urlencode, String.append_assoc, h1, h2]

/-- Witness for C7: the resolved-tenant conjunct applied to Scenario
A's store, where the alias is `microsoft`. -/
theorem identify_tenant_builds_idp_hint_url_witness :
    (identify_tenant cfg0 db0 "tenant-a").keycloak_auth_url =
      some (buildAuthUrl cfg0 "microsoft") :=
  (identify_tenant_builds_idp_hint_url cfg0 db0 "tenant-a").1 tenantA (by decide)

/-- Every callback run either fails leaving the input store as the
committed state, or reports success under a successful commit. -/
theorem callback_shape (db : DB) (cached : Option (List JWK)) (fresh : List JWK)
    (now : Nat) (td : TokenData) (commitOk : Bool) :
    (∃ e, callback db cached fresh now td commitOk = (db, .error e)) ∨
    (commitOk = true ∧ ∃ r db', callback db cached fresh now td commitOk = (db', .ok r)) := by
  simp only [callback]
  split
  · exact Or.inl ⟨_, rfl⟩
  · split
    · exact Or.inl ⟨_, rfl⟩
    · split
      · exact Or.inl ⟨_, rfl⟩
      · split
        · rename_i hc
          exact Or.inr ⟨hc, _, _, rfl⟩
        · exact Or.inl ⟨_, rfl⟩

/-- C8: the callback write is one transaction: any failing callback
leaves the committed tenant and user state exactly as before the call,
a failed commit always fails the request, and a persistence failure on
an input that would otherwise succeed surfaces as the rolled-back
persistence error. -/
theorem callback_single_transaction_rollback
    (db : DB) (cached : Option (List JWK)) (fresh : List JWK) (now : Nat) (td : TokenData) :
    (∀ commitOk e, (callback db cached fresh now td commitOk).2 = .error e →
       (callback db cached fresh now td commitOk).1 = db) ∧
    ((callback db cached fresh now td false).1 = db ∧
     ∃ e, (callback db cached fresh now td false).2 = .error e) ∧
    (∀ r, (callback db cached fresh now td true).2 = .ok r →
       (callback db cached fresh now td false).2 =
         .error (.serverError "Callback processing failed: persistence error")) := by
  refine ⟨?_, ?_, ?_⟩
  · intro commitOk e hsnd
    rcases callback_shape db cached fresh now td commitOk with ⟨e', he⟩ | ⟨_, r, db', hok⟩
    · rw [he]
    · rw [hok] at hsnd
      simp at hsnd
  · rcases callback_shape db cached fresh now td false with ⟨e', he⟩ | ⟨habs, _, _, _⟩
    · rw [he]
      exact ⟨rfl, e', rfl⟩
    · exact absurd habs (by simp)
  · intro r hok
    simp only [callback] at hok ⊢
    cases hd : (KeycloakService.decode_token cached fresh now td.access_token).1 with
    | error m =>
        cases m with
        | invalidToken msg => rw [hd] at hok; simp at hok
    | ok decoded =>
        rw [hd] at hok
        simp only [] at hok ⊢
        split at hok
        · simp at hok
        · rename_i hcond
          rw [if_neg hcond]
          cases hten : findActiveTenant db "tenant-a" with
          | none => rw [hten] at hok; simp at hok
          | some tenant => simp

/-- The response a successful Scenario C callback commits. -/
def respGood : TokenResponse :=
  ⟨tok0, "rt-1", "bearer", 300,
   mkUserResponse ⟨10, 1, "abc", "a@x.com", some "A", some "B", "tenant-a",
     "active", some 500, 500⟩ (mkTenantResponse tenantA)⟩

/-- Witness for C8: persistence failure on the Scenario C input rolls
back and reports the persistence error. -/
theorem callback_single_transaction_rollback_witness :
    (callback db0 none [key0] 500 td0 false).1 = db0 ∧
    (callback db0 none [key0] 500 td0 false).2 =
      .error (.serverError "Callback processing failed: persistence error") :=
  ⟨(callback_single_transaction_rollback db0 none [key0] 500 td0).2.1.1,
   (callback_single_transaction_rollback db0 none [key0] 500 td0).2.2
     respGood (by rfl)⟩

/-- C3 (code bug): the callback assigns the constant `"tenant-a"` as
the department instead of deriving it from the decoded claims — for a
token whose claims carry department `tenant-b`, the stored user still
gets department `tenant-a` and is bound to tenant 1, the resolution
the constant forces. -/
theorem callback_department_is_hardcoded :
    td0.access_token.claims.department = some "tenant-b" ∧
    (callback db0 none [key0] 500 td0 true).2.isOk = true ∧
    (findUser (callback db0 none [key0] 500 td0 true).1 "abc").map User.department =
      some "tenant-a" ∧
    (findUser (callback db0 none [key0] 500 td0 true).1 "abc").map User.tenant_id =
      some 1 ∧
    some "tenant-a" ≠ td0.access_token.claims.department := by
  refine ⟨by decide, by decide, by decide, by decide, by decide⟩

/-- An existing active local user for `sub = "abc"` holding the email
recorded at the previous login. -/
def userOld : User :=
  ⟨7, 1, "abc", "old@x.com", some "Old", some "User", "tenant-a", "active",
   some 100, 100⟩

/-- A store holding `tenantA` and `userOld`. -/
def dbR : DB := ⟨[tenantA], [userOld], 10⟩

/-- Refreshed-token claims for the same subject with a new email. -/
def claimsNew : Claims :=
  ⟨some "abc", some "new@x.com", some "New", some "Name", none, none, 1000, none⟩

/-- A well-formed token over `claimsNew`, signed with `key0`. -/
def tokNew : Token := ⟨true, "kid1", "RS256", 77, claimsNew⟩

/-- The refresh-grant response carrying `tokNew`. -/
def tdNew : TokenData := ⟨tokNew, "rt-2", some 300⟩

/-- C9 (counterexample): a successful refresh whose new token carries
email `new@x.com` leaves the stored email at `old@x.com` — the refresh
endpoint does not update the claim-derived fields. -/
theorem refresh_does_not_update_claim_fields :
    tdNew.access_token.claims.email = some "new@x.com" ∧
    (refresh dbR none [key0] 500 tdNew true).2.isOk = true ∧
    (findUser (refresh dbR none [key0] 500 tdNew true).1 "abc").map User.email =
      some "old@x.com" ∧
    (findUser (refresh dbR none [key0] 500 tdNew true).1 "abc").map User.first_name =
      some (some "Old") := by
  refine ⟨by decide, by decide, by decide, by decide⟩

/-- C9 (amended): a successful refresh touches only the subject's
`last_login` (and the ORM-managed `updated_at`); its email, names,
department, tenant binding and status, and every other user row, are
unchanged; the tenants table is untouched. -/
theorem refresh_updates_only_last_login
    (db : DB) (cached : Option (List JWK)) (fresh : List JWK) (now : Nat)
    (td : TokenData)
    (h : (refresh db cached fresh now td true).2.isOk = true) :
    (refresh db cached fresh now td true).1.tenants = db.tenants ∧
    ∃ s u, td.access_token.claims.sub = some s ∧ findUser db s = some u ∧
      (refresh db cached fresh now td true).1.users =
        replaceFirst (subMatches s)
          (fun v => { v with last_login := some now, updated_at := now }) db.users ∧
      findUser (refresh db cached fresh now td true).1 s =
        some { u with last_login := some now, updated_at := now } ∧
      (∀ v ∈ db.users, subMatches s v = false →
        v ∈ (refresh db cached fresh now td true).1.users) := by
  simp only [refresh] at h ⊢
  cases hd : (KeycloakService.decode_token cached fresh now td.access_token).1 with
  | error m =>
      rw [hd] at h
      cases m with
      | invalidToken msg => simp [Except.isOk, Except.toBool] at h
  | ok decoded =>
      rw [hd] at h
      have hdc : decoded = td.access_token.claims := decode_token_ok_claims hd
      subst hdc
      simp only [] at h ⊢
      cases hsub : td.access_token.claims.sub with
      | none => rw [hsub] at h; simp [Except.isOk, Except.toBool] at h
      | some s =>
          rw [hsub] at h
          simp only [] at h ⊢
          cases hfu : findUser db s with
          | none => rw [hfu] at h; simp [Except.isOk, Except.toBool] at h
          | some u =>
              rw [hfu] at h
              simp only [] at h ⊢
              cases hten : db.tenants.find? (fun t => t.id == u.tenant_id) with
              | none => rw [hten] at h; simp [Except.isOk, Except.toBool] at h
              | some tenant =>
                  rw [hten] at h
                  refine ⟨rfl, s, u, rfl, hfu, rfl, ?_, ?_⟩
                  · exact find?_replaceFirst hfu (by
                      have := List.find?_some hfu
                      simpa [subMatches] using this)
                  · intro v hv hpv
                    exact mem_replaceFirst_of_neg hv hpv

/-- Witness for C9's amended theorem: the concrete refresh of `dbR`. -/
theorem refresh_updates_only_last_login_witness :
    (refresh dbR none [key0] 500 tdNew true).1.tenants = dbR.tenants ∧
    ∃ s u, tdNew.access_token.claims.sub = some s ∧ findUser dbR s = some u ∧
      (refresh dbR none [key0] 500 tdNew true).1.users =
        replaceFirst (subMatches s)
          (fun v => { v with last_login := some 500, updated_at := 500 }) dbR.users ∧
      findUser (refresh dbR none [key0] 500 tdNew true).1 s =
        some { u with last_login := some 500, updated_at := 500 } ∧
      (∀ v ∈ dbR.users, subMatches s v = false →
        v ∈ (refresh dbR none [key0] 500 tdNew true).1.users) :=
  refresh_updates_only_last_login dbR none [key0] 500 tdNew (by decide)

/-- A present claim extracts to itself. -/
theorem extractOrEmpty_some (x : String) : extractOrEmpty (some x) = x := rfl

/-- C1: two successful callbacks whose authorization codes decode to
the same `sub` leave exactly one user row for that subject; the second
call reuses the first call's user id and overwrites email, first name,
last name, department and tenant binding from its own claims,
advancing `last_login` to the second call's time — no duplicate user
is created. -/
theorem callback_idempotent_on_sub
    (db : DB) (cached : Option (List JWK)) (fresh : List JWK)
    (now1 now2 : Nat) (td1 td2 : TokenData) (s : String)
    (db1 db2 : DB) (r1 r2 : TokenResponse)
    (hs1 : td1.access_token.claims.sub = some s)
    (hs2 : td2.access_token.claims.sub = some s)
    (hinv : (db.users.filter (subMatches s)).length ≤ 1)
    (h1 : callback db cached fresh now1 td1 true = (db1, .ok r1))
    (h2 : callback db1 cached fresh now2 td2 true = (db2, .ok r2)) :
    (db2.users.filter (subMatches s)).length = 1 ∧
    r2.user.id = r1.user.id ∧
    ∃ u tenant, findUser db2 s = some u ∧
      findActiveTenant db "tenant-a" = some tenant ∧
      u.email = extractOrEmpty td2.access_token.claims.email ∧
      u.first_name = td2.access_token.claims.given_name ∧
      u.last_name = td2.access_token.claims.family_name ∧
      u.department = "tenant-a" ∧
      u.tenant_id = tenant.id ∧
      u.last_login = some now2 := by
  obtain ⟨ten1, hdec1, hsub1, hem1, hten1, hdb1, hr1⟩ := callback_ok_inversion h1
  obtain ⟨ten2, hdec2, hsub2, hem2, hten2, hdb2, hr2⟩ := callback_ok_inversion h2
  rw [hs1] at hdb1 hr1
  rw [hs2] at hdb2 hr2
  simp only [extractOrEmpty_some] at hdb1 hr1 hdb2 hr2
  have htenants1 : db1.tenants = db.tenants := by
    rw [hdb1]; exact upsertUser_tenants ..
  have hten2' : findActiveTenant db "tenant-a" = some ten2 := by
    rw [← hten2]
    unfold findActiveTenant
    rw [htenants1]
  have hfind1 : findUser db1 s =
      some (upsertUser db s (extractOrEmpty td1.access_token.claims.email)
        td1.access_token.claims.given_name td1.access_token.claims.family_name
        "tenant-a" ten1.id now1).2 := by
    rw [hdb1]; exact findUser_upsertUser ..
  have hcount1 : (db1.users.filter (subMatches s)).length = 1 := by
    rw [hdb1]; exact upsertUser_count db s _ _ _ _ _ _ hinv
  have hcount2 : (db2.users.filter (subMatches s)).length = 1 := by
    rw [hdb2]; exact upsertUser_count db1 s _ _ _ _ _ _ (le_of_eq hcount1)
  have hid2 :
      (upsertUser db1 s (extractOrEmpty td2.access_token.claims.email)
        td2.access_token.claims.given_name td2.access_token.claims.family_name
        "tenant-a" ten2.id now2).2.id =
      (upsertUser db s (extractOrEmpty td1.access_token.claims.email)
        td1.access_token.claims.given_name td1.access_token.claims.family_name
        "tenant-a" ten1.id now1).2.id :=
    upsertUser_id_of_found hfind1 _ _ _ _ _ _
  have hfind2 : findUser db2 s =
      some (upsertUser db1 s (extractOrEmpty td2.access_token.claims.email)
        td2.access_token.claims.given_name td2.access_token.claims.family_name
        "tenant-a" ten2.id now2).2 := by
    rw [hdb2]; exact findUser_upsertUser ..
  obtain ⟨_, hemail, hfn, hln, hdept, htid, hlog⟩ :=
    upsertUser_fields db1 s (extractOrEmpty td2.access_token.claims.email)
      td2.access_token.claims.given_name td2.access_token.claims.family_name
      "tenant-a" ten2.id now2
  refine ⟨hcount2, ?_, _, ten2, hfind2, hten2', hemail, hfn, hln, hdept, htid, hlog⟩
  rw [hr1, hr2]
  simp only [mkUserResponse]
  rw [hid2]

/-- The user row committed by the first Scenario C callback. -/
def userRow1 : User :=
  ⟨10, 1, "abc", "a@x.com", some "A", some "B", "tenant-a", "active", some 500, 500⟩

/-- The store after the first callback. -/
def db1c : DB := ⟨[tenantA, tenantB], [userRow1], 11⟩

/-- The same row after the second callback advanced `last_login`. -/
def userRow2 : User :=
  ⟨10, 1, "abc", "a@x.com", some "A", some "B", "tenant-a", "active", some 600, 600⟩

/-- The store after the second callback: still one row, same id. -/
def db2c : DB := ⟨[tenantA, tenantB], [userRow2], 11⟩

/-- The second callback's response. -/
def resp2c : TokenResponse :=
  ⟨tok0, "rt-1", "bearer", 300, mkUserResponse userRow2 (mkTenantResponse tenantA)⟩

/-- Witness for C1: replaying the Scenario C callback at a later clock
keeps one row and the same user id. -/
theorem callback_idempotent_on_sub_witness :
    (db2c.users.filter (subMatches "abc")).length = 1 ∧
    resp2c.user.id = respGood.user.id := by
  have h := callback_idempotent_on_sub db0 none [key0] 500 600 td0 td0 "abc" db1c db2c
    respGood resp2c (by decide) (by decide) (by decide) (by rfl) (by rfl)
  exact ⟨h.1, h.2.1⟩
